import Mathlib

/-!
Shallow embedding of the chat server in `src/chatServer.py`.

The server keeps a pool of connected clients (`ConnectionPool`, whose only
state is the Python set `connection_pool` of `asyncio.StreamWriter` objects),
and one connection handler per client (`handle_connection`).

Modelling choices, each justified against the source:

* A `StreamWriter` object is modelled as a `Session` record.  Python compares
  writers by object identity (`user != writer` at line 51, `user == writer`
  at line 91); distinct writer objects are modelled by distinct `sid` values,
  and the nickname attached at line 119 (`writer.nickname = ...`) is the
  `nickname` field.  Equality of `Session` values models identity of writer
  objects: two distinct live writers always have distinct `sid`s.

* The Python `set` is modelled as a duplicate-free `List Session` holding the
  set's iteration order.  CPython sets are hash tables: iteration order is
  unspecified and `set.add` may place a new element before or after existing
  ones in iteration order.  `add_new_user_to_pool` therefore takes an extra
  `pos` argument, the (unspecified, hash-determined) slot at which the new
  element appears; `set` semantics fix only membership, never order.

* `writer.write(bytes)` calls are recorded as `(recipient, text)` events.
  A write may raise (e.g. a failed peer); line 52 sits in no `try`, so an
  exception aborts the `for` loop of `broadcast`.  `broadcastWith` makes the
  failure behaviour explicit via a `fails` predicate and an `aborted` flag;
  the exception-free run is `broadcast`.

* `str.strip()` (lines 119 and 135) is `pyStrip`: it removes leading and
  trailing characters `c` with `c.isspace()`; on ASCII input these are
  space, tab, newline, carriage return, vertical tab and form feed.

* `set.remove` (line 110) raises `KeyError` on an absent element, so
  `remove_user_from_pool` returns `Except String (List Session)`.
  `set.add` (line 102) never raises; on a present element it is a no-op.
-/

/-- A connected client: one `asyncio.StreamWriter` with the `nickname`
attribute attached by `handle_connection` (line 119).  `sid` models object
identity, so two sessions may share a nickname while staying distinct. -/
structure Session where
  sid : Nat
  nickname : String
deriving DecidableEq

/-- Equality of `Except` results is decidable when both components are;
used only to evaluate concrete runs. -/
instance {ε α : Type} [DecidableEq ε] [DecidableEq α] :
    DecidableEq (Except ε α) := fun x y =>
  match x, y with
  | Except.ok a, Except.ok b =>
    if h : a = b then isTrue (by rw [h])
    else isFalse (by intro hc; cases hc; exact h rfl)
  | Except.error a, Except.error b =>
    if h : a = b then isTrue (by rw [h])
    else isFalse (by intro hc; cases hc; exact h rfl)
  | Except.ok _, Except.error _ => isFalse (by intro hc; cases hc)
  | Except.error _, Except.ok _ => isFalse (by intro hc; cases hc)

/-- Characters stripped by Python `str.strip()` on ASCII text:
`' '`, `'\t'`, `'\n'`, `'\r'`, `'\x0b'` (vertical tab), `'\x0c'` (form feed). -/
def isPySpace (c : Char) : Bool :=
  c = ' ' || c = '\t' || c = '\n' || c = '\r' || c = '\x0b' || c = '\x0c'

/-- `str.strip()` on the character list: drop leading whitespace, then drop
trailing whitespace (realised by reversing, dropping, reversing back). -/
def pyStripList (l : List Char) : List Char :=
  ((l.dropWhile isPySpace).reverse.dropWhile isPySpace).reverse

/-- Python `str.strip()` with no argument, as used at lines 119 and 135. -/
def pyStrip (s : String) : String :=
  String.mk (pyStripList s.toList)

/-- `ConnectionPool.add_new_user_to_pool` (lines 96-102): `set.add`.
Membership semantics of the Python set: adding a present element changes
nothing (and raises nothing); adding a fresh element makes it a member.
`pos` is the slot of the new element in the set's (unspecified) iteration
order. -/
def add_new_user_to_pool (pool : List Session) (writer : Session) (pos : Nat) :
    List Session :=
  if writer ∈ pool then pool
  else pool.take pos ++ [writer] ++ pool.drop pos

/-- `ConnectionPool.remove_user_from_pool` (lines 104-110): `set.remove`,
which raises `KeyError` when the element is absent. -/
def remove_user_from_pool (pool : List Session) (writer : Session) :
    Except String (List Session) :=
  if writer ∈ pool then Except.ok (pool.erase writer)
  else Except.error "KeyError"

/-- `ConnectionPool.broadcast` (lines 42-52) with an explicit write-failure
model.  The loop walks the pool in iteration order and writes
`message ++ "\n\r"` to every member other than the sender (`user != writer`,
line 51).  A raising `user.write` (`fails user = true`) sits in no
`try`/`except`, so it ends the loop at once: the result records the writes
performed before the failure and whether the broadcast aborted. -/
def broadcastWith (fails : Session → Bool) (pool : List Session)
    (writer : Session) (message : String) :
    List (Session × String) × Bool :=
  match pool with
  | [] => ([], false)
  | user :: rest =>
    if user = writer then broadcastWith fails rest writer message
    else if fails user then ([], true)
    else
      let r := broadcastWith fails rest writer message
      ((user, message ++ "\n\r") :: r.1, r.2)

/-- `ConnectionPool.broadcast` when no write raises. -/
def broadcast (pool : List Session) (writer : Session) (message : String) :
    List (Session × String) :=
  (broadcastWith (fun _ => false) pool writer message).1

/-- `ConnectionPool.broadcast_user_join` (lines 54-61). -/
def broadcast_user_join (pool : List Session) (writer : Session) :
    List (Session × String) :=
  broadcast pool writer (writer.nickname ++ " just joined")

/-- `ConnectionPool.broadcast_user_quit` (lines 63-70). -/
def broadcast_user_quit (pool : List Session) (writer : Session) :
    List (Session × String) :=
  broadcast pool writer (writer.nickname ++ " just quit")

/-- `ConnectionPool.broadcast_new_message` (lines 72-79): the chat message is
sent as `f"[{writer.nickname}]: {message}"`. -/
def broadcast_new_message (pool : List Session) (writer : Session)
    (message : String) : List (Session × String) :=
  broadcast pool writer ("[" ++ writer.nickname ++ "]: " ++ message)

/-- `ConnectionPool.list_users` (lines 81-94): builds one string —
`"===\n\r" + "Currently connected users:"`, then per pool member (in
iteration order) `"\n\r - " + nickname`, plus `" (you)"` when the member is
the requester (`user == writer`), then `"\n\r==="` — and writes it followed
by `"\n\r"`. -/
def list_users (pool : List Session) (writer : Session) : String :=
  let message := "===\n\r" ++ "Currently connected users:"
  let message := pool.foldl
    (fun acc user =>
      acc ++ ("\n\r - " ++ user.nickname ++
        (if user = writer then " (you)" else ""))) message
  let message := message ++ "\n\r==="
  message ++ "\n\r"

/-- The part of the pool length that the welcome banner interpolates:
`len(self.connection_pool) - 1` (line 32), a Python `int`. -/
def usersBesideYou (pool : List Session) : Int :=
  (pool.length : Int) - 1

/-- `ConnectionPool.send_welcome_message` (lines 21-40): the `dedent`-ed
banner with the nickname and `len(self.connection_pool) - 1` interpolated,
written followed by `"\n\r"`.  (`textwrap.dedent` removes the common 8-space
margin; the two all-blank lines of the literal keep their `\r`, which is not
`[ \t]`, so only the final spaces-only line is blanked.) -/
def send_welcome_message (pool : List Session) (writer : Session) : String :=
  "\n\r=== \n\rWelcome " ++ writer.nickname ++
    "!\n\r\n\rThere are " ++ toString (usersBesideYou pool) ++
    " user(s) here beside you\n\r            \n\rHelp: \n \r- Type anything to chat\n \r- /list will list all the connected users\n \r- /quit will disconnect you\n\r===\n" ++
    "\n\r"

/-- Outcome of `await reader.readuntil(b"\n")` inside the `ACTIVE` loop
(line 131):

* `line data`: a full line, the bytes up to and including the `"\n"`;
* `eof`: the `asyncio.exceptions.IncompleteReadError` raised when the peer
  closes the stream cleanly (FIN) before a separator arrives — the one and
  only exception the `except` clause at line 132 names;
* `err exc`: any other read failure re-raised by `readuntil`, e.g. the
  `ConnectionResetError` an abortive peer close (RST) stores in the
  `StreamReader`.  Such an exception is not an `IncompleteReadError`, so
  nothing in `handle_connection` catches it. -/
inductive ReadResult where
  | line (data : String)
  | eof
  | err (exc : String)
deriving DecidableEq

/-- One iteration of the `while True` loop of `handle_connection`
(lines 129-151), for a session `writer` currently in `pool`:

* `eof` (`IncompleteReadError`, caught at line 132): broadcast the quit
  announcement, `break`, then the post-loop cleanup (lines 148-151) removes
  the session from the pool;
* a line: `message = data.decode().strip()`; exactly `"/quit"` broadcasts
  the quit announcement and breaks (then cleanup removes the session);
  exactly `"/list"` writes the listing back to the requester only; anything
  else is broadcast as a chat message;
* `err exc` (any other read failure, e.g. `ConnectionResetError`): the
  `except` clause at line 132 does not match it, so the exception
  propagates out of `handle_connection`: nothing is written, the quit
  announcement is never broadcast, and lines 148-151 never run — the
  session stays in the pool.

Returns (writes performed, pool outcome, whether the handler terminated).
The pool outcome is an `Except`: `Except.ok` carries the pool after the
iteration; `Except.error` carries the message of an exception that escaped
the handler uncaught — the cleanup's `set.remove` `KeyError` on the
quit/eof path, or the re-raised read error on the `err` path (in which case
the pool itself is left unchanged: no removal ever happens).
`writer.drain()` and the `writer.is_closing()` check are not modelled
(`is_closing` is taken as `False`: no concurrent forced close). -/
def handleRead (pool : List Session) (writer : Session) (r : ReadResult) :
    List (Session × String) × Except String (List Session) × Bool :=
  match r with
  | ReadResult.eof =>
    (broadcast_user_quit pool writer, remove_user_from_pool pool writer, true)
  | ReadResult.line data =>
    let message := pyStrip data
    if message = "/quit" then
      (broadcast_user_quit pool writer, remove_user_from_pool pool writer, true)
    else if message = "/list" then
      ([(writer, list_users pool writer)], Except.ok pool, false)
    else
      (broadcast_new_message pool writer message, Except.ok pool, false)
  | ReadResult.err exc =>
    ([], Except.error exc, true)

/-- One accepted connection, as seen by `handle_connection` (lines 113-126):
the first input line `line` (read by `readuntil(b"\n")`), the identity `sid`
of the fresh writer object, and the iteration-order slot `pos` the set gives
the new element. -/
structure ConnEvent where
  sid : Nat
  line : String
  pos : Nat
deriving DecidableEq

/-- Lines 115-119: the session the handshake builds — the writer object with
`writer.nickname = response.decode().strip()` attached. -/
def mkSession (c : ConnEvent) : Session :=
  { sid := c.sid, nickname := pyStrip c.line }

/-- Lines 121-122: the pool after `add_new_user_to_pool` admits the new
session. -/
def connectPool (pool : List Session) (c : ConnEvent) : List Session :=
  add_new_user_to_pool pool (mkSession c) c.pos

/-- A sequence of connections handled in order from a starting pool.
Each step adds the new session, then records the count
`len(self.connection_pool) - 1` that `send_welcome_message` interpolates
(line 123 runs after line 122, so the count is taken on the pool that
already holds the new session).  Returns the final pool and the recorded
welcome counts, in connection order. -/
def runConnectsFrom (pool : List Session) :
    List ConnEvent → List Session × List Int
  | [] => (pool, [])
  | c :: cs =>
    let pool' := connectPool pool c
    let r := runConnectsFrom pool' cs
    (r.1, usersBesideYou pool' :: r.2)

/-- A sequence of connections against an initially empty pool (the module
creates `connection_pool = ConnectionPool()` fresh at line 160). -/
def runConnects (cs : List ConnEvent) : List Session × List Int :=
  runConnectsFrom [] cs

example : pyStrip "  /quit  \n" = "/quit" := by decide
example : pyStrip "\n" = "" := by decide
example :
    runConnects [⟨0, "bob\n", 0⟩, ⟨1, " alice \n", 0⟩] =
      ([⟨1, "alice"⟩, ⟨0, "bob"⟩], [0, 1]) := by decide

/-! ### Lemmas about the pool operations -/

lemma mem_add_new_user_to_pool (pool : List Session) (s : Session) (pos : Nat)
    (x : Session) : x ∈ add_new_user_to_pool pool s pos ↔ x ∈ pool ∨ x = s := by
  unfold add_new_user_to_pool
  split
  · rename_i hmem
    constructor
    · exact fun h => Or.inl h
    · rintro (h | rfl)
      · exact h
      · exact hmem
  · constructor
    · intro h
      rcases List.mem_append.mp h with h1 | h2
      · rcases List.mem_append.mp h1 with htake | hs
        · exact Or.inl (List.mem_of_mem_take htake)
        · exact Or.inr (List.mem_singleton.mp hs)
      · exact Or.inl (List.mem_of_mem_drop h2)
    · rintro (h | rfl)
      · rcases List.mem_append.mp ((List.take_append_drop pos pool).symm ▸ h)
          with htake | hdrop
        · exact List.mem_append.mpr (Or.inl (List.mem_append.mpr (Or.inl htake)))
        · exact List.mem_append.mpr (Or.inr hdrop)
      · exact List.mem_append.mpr
          (Or.inl (List.mem_append.mpr (Or.inr (List.mem_singleton.mpr rfl))))

lemma length_add_new_user_to_pool (pool : List Session) (s : Session)
    (pos : Nat) (h : s ∉ pool) :
    (add_new_user_to_pool pool s pos).length = pool.length + 1 := by
  unfold add_new_user_to_pool
  rw [if_neg h]
  simp [List.length_append, List.length_take, List.length_drop]
  omega

lemma add_new_user_to_pool_of_mem (pool : List Session) (s : Session)
    (pos : Nat) (h : s ∈ pool) : add_new_user_to_pool pool s pos = pool := by
  unfold add_new_user_to_pool
  exact if_pos h

/-! ### Lemmas about `broadcast` -/

lemma mem_broadcastWith (fails : Session → Bool) (pool : List Session)
    (w : Session) (m : String) (u : Session) (s : String) :
    (u, s) ∈ (broadcastWith fails pool w m).1 →
      u ∈ pool ∧ u ≠ w ∧ s = m ++ "\n\r" ∧ fails u = false := by
  induction pool with
  | nil => intro h; simp [broadcastWith] at h
  | cons a rest ih =>
    intro h
    unfold broadcastWith at h
    by_cases haw : a = w
    · rw [if_pos haw] at h
      rcases ih h with ⟨h1, h2, h3, h4⟩
      exact ⟨List.mem_cons_of_mem _ h1, h2, h3, h4⟩
    · rw [if_neg haw] at h
      by_cases hf : fails a
      · rw [if_pos hf] at h
        simp at h
      · rw [if_neg hf] at h
        rcases List.mem_cons.mp h with heq | hrest
        · rcases Prod.mk.injEq .. ▸ heq with ⟨rfl, rfl⟩
          exact ⟨List.mem_cons_self .., haw, rfl, eq_false_of_ne_true hf⟩
        · rcases ih hrest with ⟨h1, h2, h3, h4⟩
          exact ⟨List.mem_cons_of_mem _ h1, h2, h3, h4⟩

lemma broadcastWith_aborted (fails : Session → Bool) (pool : List Session)
    (w : Session) (m : String) :
    (broadcastWith fails pool w m).2 = true ↔
      ∃ u ∈ pool, u ≠ w ∧ fails u = true := by
  induction pool with
  | nil => simp [broadcastWith]
  | cons a rest ih =>
    unfold broadcastWith
    by_cases haw : a = w
    · subst haw
      rw [if_pos rfl, ih]
      constructor
      · rintro ⟨u, hu, hne, hf⟩
        exact ⟨u, List.mem_cons_of_mem _ hu, hne, hf⟩
      · rintro ⟨u, hu, hne, hf⟩
        rcases List.mem_cons.mp hu with rfl | hu
        · exact absurd rfl hne
        · exact ⟨u, hu, hne, hf⟩
    · rw [if_neg haw]
      by_cases hf : fails a
      · rw [if_pos hf]
        simp only [true_iff]
        exact ⟨a, List.mem_cons_self .., haw, hf⟩
      · rw [if_neg hf]
        simp only []
        rw [ih]
        constructor
        · rintro ⟨u, hu, hne, hfu⟩
          exact ⟨u, List.mem_cons_of_mem _ hu, hne, hfu⟩
        · rintro ⟨u, hu, hne, hfu⟩
          rcases List.mem_cons.mp hu with rfl | hu
          · exact absurd hfu (by simp [hf])
          · exact ⟨u, hu, hne, hfu⟩

lemma broadcastWith_complete (fails : Session → Bool) (pool : List Session)
    (w : Session) (m : String) (hab : (broadcastWith fails pool w m).2 = false)
    (u : Session) (hu : u ∈ pool) (hne : u ≠ w) :
    (u, m ++ "\n\r") ∈ (broadcastWith fails pool w m).1 := by
  induction pool with
  | nil => cases hu
  | cons a rest ih =>
    unfold broadcastWith at hab ⊢
    by_cases haw : a = w
    · rw [if_pos haw] at hab ⊢
      rcases List.mem_cons.mp hu with rfl | hu
      · exact absurd haw hne
      · exact ih hab hu
    · rw [if_neg haw] at hab ⊢
      by_cases hf : fails a
      · rw [if_pos hf] at hab
        simp at hab
      · rw [if_neg hf] at hab ⊢
        rcases List.mem_cons.mp hu with rfl | hu
        · exact List.mem_cons_self ..
        · exact List.mem_cons_of_mem _ (ih hab hu)

lemma broadcastWith_never_fails_not_aborted (pool : List Session)
    (w : Session) (m : String) :
    (broadcastWith (fun _ => false) pool w m).2 = false := by
  induction pool with
  | nil => rfl
  | cons a rest ih =>
    unfold broadcastWith
    by_cases haw : a = w
    · rw [if_pos haw]; exact ih
    · rw [if_neg haw]; exact ih

/-! ### Lemmas about `pyStrip` -/

lemma head_dropWhile_false {α : Type} (p : α → Bool) (l : List α) (a : α)
    (h : (l.dropWhile p).head? = some a) : p a = false := by
  have hd := List.head?_dropWhile_not p l
  rw [h] at hd
  exact hd

lemma pyStripList_head (l : List Char) (a : Char)
    (h : (pyStripList l).head? = some a) : isPySpace a = false := by
  unfold pyStripList at h
  rw [List.head?_reverse] at h
  have hsplit :
      ((l.dropWhile isPySpace).reverse.takeWhile isPySpace) ++
        ((l.dropWhile isPySpace).reverse.dropWhile isPySpace) =
        (l.dropWhile isPySpace).reverse :=
    List.takeWhile_append_dropWhile ..
  have hlast : (l.dropWhile isPySpace).reverse.getLast? = some a := by
    rw [← hsplit, List.getLast?_append, h]
    rfl
  rw [List.getLast?_reverse] at hlast
  exact head_dropWhile_false isPySpace l a hlast

lemma pyStripList_getLast (l : List Char) (a : Char)
    (h : (pyStripList l).getLast? = some a) : isPySpace a = false := by
  unfold pyStripList at h
  rw [List.getLast?_reverse] at h
  exact head_dropWhile_false isPySpace (l.dropWhile isPySpace).reverse a h

lemma pyStripList_decomp (l : List Char) :
    ∃ pre post, l = pre ++ pyStripList l ++ post ∧
      (∀ a ∈ pre, isPySpace a = true) ∧ (∀ a ∈ post, isPySpace a = true) := by
  refine ⟨l.takeWhile isPySpace,
    ((l.dropWhile isPySpace).reverse.takeWhile isPySpace).reverse, ?_, ?_, ?_⟩
  · have h1 : l.takeWhile isPySpace ++ l.dropWhile isPySpace = l :=
      List.takeWhile_append_dropWhile ..
    have h2 :
        ((l.dropWhile isPySpace).reverse.takeWhile isPySpace) ++
          ((l.dropWhile isPySpace).reverse.dropWhile isPySpace) =
          (l.dropWhile isPySpace).reverse :=
      List.takeWhile_append_dropWhile ..
    have h3 : l.dropWhile isPySpace =
        pyStripList l ++
          ((l.dropWhile isPySpace).reverse.takeWhile isPySpace).reverse := by
      unfold pyStripList
      rw [← List.reverse_append, h2, List.reverse_reverse]
    rw [List.append_assoc, ← h3, h1]
  · intro a ha
    exact List.mem_takeWhile_imp ha
  · intro a ha
    exact List.mem_takeWhile_imp (List.mem_reverse.mp ha)

/-! ### Folding string concatenation -/

lemma foldl_append_eq_join (xs : List String) :
    ∀ a : String, xs.foldl (fun x y => x ++ y) a = a ++ String.join xs := by
  induction xs with
  | nil => intro a; exact (String.append_empty a).symm
  | cons x xs ih =>
    intro a
    have hjoin : String.join (x :: xs) = x ++ String.join xs := by
      show List.foldl (fun x y => x ++ y) ("" ++ x) xs = _
      rw [String.empty_append, ih x]
    show List.foldl (fun x y => x ++ y) (a ++ x) xs = _
    rw [ih (a ++ x), hjoin, String.append_assoc]

/-! ### Lemmas about connection sequences -/

lemma mem_runConnectsFrom :
    ∀ (cs : List ConnEvent) (pool : List Session) (u : Session),
      u ∈ (runConnectsFrom pool cs).1 →
        u ∈ pool ∨ ∃ c ∈ cs, u = mkSession c := by
  intro cs
  induction cs with
  | nil => intro pool u h; exact Or.inl h
  | cons c cs ih =>
    intro pool u h
    rcases ih (connectPool pool c) u h with hp | ⟨c', hc', rfl⟩
    · rcases (mem_add_new_user_to_pool pool (mkSession c) c.pos u).mp hp
        with hp | rfl
      · exact Or.inl hp
      · exact Or.inr ⟨c, List.mem_cons_self .., rfl⟩
    · exact Or.inr ⟨c', List.mem_cons_of_mem _ hc', rfl⟩

lemma runConnectsFrom_counts :
    ∀ (cs : List ConnEvent) (pool : List Session),
      (cs.map ConnEvent.sid).Nodup →
      (∀ c ∈ cs, c.sid ∉ pool.map Session.sid) →
      (runConnectsFrom pool cs).2 =
        (List.range' pool.length cs.length).map Int.ofNat := by
  intro cs
  induction cs with
  | nil => intro pool _ _; rfl
  | cons c cs ih =>
    intro pool h1 h2
    have hfresh : mkSession c ∉ pool := by
      intro hmem
      exact h2 c (List.mem_cons_self ..)
        (List.mem_map.mpr ⟨mkSession c, hmem, rfl⟩)
    have hlen : (connectPool pool c).length = pool.length + 1 :=
      length_add_new_user_to_pool pool (mkSession c) c.pos hfresh
    have hnodup : (cs.map ConnEvent.sid).Nodup :=
      (List.nodup_cons.mp (by simpa using h1)).2
    have hnotin : c.sid ∉ cs.map ConnEvent.sid :=
      (List.nodup_cons.mp (by simpa using h1)).1
    have h2' : ∀ c' ∈ cs, c'.sid ∉ (connectPool pool c).map Session.sid := by
      intro c' hc' hmem
      rcases List.mem_map.mp hmem with ⟨y, hy, hsid⟩
      rcases (mem_add_new_user_to_pool pool (mkSession c) c.pos y).mp hy
        with hy' | rfl
      · exact h2 c' (List.mem_cons_of_mem _ hc')
          (List.mem_map.mpr ⟨y, hy', hsid⟩)
      · apply hnotin
        have hmem' : c'.sid ∈ cs.map ConnEvent.sid :=
          List.mem_map.mpr ⟨c', hc', rfl⟩
        have heq : c.sid = c'.sid := hsid
        rw [heq]
        exact hmem'
    have hcount : usersBesideYou (connectPool pool c) = (pool.length : Int) := by
      unfold usersBesideYou
      rw [hlen]
      push_cast
      ring
    show usersBesideYou (connectPool pool c) ::
        (runConnectsFrom (connectPool pool c) cs).2 = _
    simp only [List.length_cons]
    rw [hcount, ih (connectPool pool c) hnodup h2', hlen, List.range'_succ,
      List.map_cons]
    rfl

lemma mem_broadcast (pool : List Session) (w : Session) (m : String)
    (u : Session) (s : String) :
    (u, s) ∈ broadcast pool w m ↔ u ∈ pool ∧ u ≠ w ∧ s = m ++ "\n\r" := by
  constructor
  · intro h
    rcases mem_broadcastWith _ _ _ _ _ _ h with ⟨h1, h2, h3, _⟩
    exact ⟨h1, h2, h3⟩
  · rintro ⟨h1, h2, rfl⟩
    exact broadcastWith_complete _ _ _ _
      (broadcastWith_never_fails_not_aborted pool w m) u h1 h2

/-! ### Claim C1 -/

/-- C1: a chat line sent by an active session is delivered (as
`"[<nickname>]: <message>"` plus the line terminator) to exactly the pool
members other than the sender, and never to the sender itself; the
exclusion test is `user != writer` — session identity — so a member sharing
the sender's nickname still receives the message. -/
theorem chat_broadcast_excludes_sender (pool : List Session) (w : Session)
    (msg : String) :
    (∀ u : Session,
      (u, "[" ++ w.nickname ++ "]: " ++ msg ++ "\n\r") ∈
          broadcast_new_message pool w msg ↔ u ∈ pool ∧ u ≠ w) ∧
    (∀ b : String, (w, b) ∉ broadcast_new_message pool w msg) := by
  constructor
  · intro u
    unfold broadcast_new_message
    rw [mem_broadcast]
    constructor
    · rintro ⟨h1, h2, _⟩
      exact ⟨h1, h2⟩
    · rintro ⟨h1, h2⟩
      exact ⟨h1, h2, rfl⟩
  · intro b hmem
    unfold broadcast_new_message at hmem
    rcases (mem_broadcast ..).mp hmem with ⟨_, hne, _⟩
    exact hne rfl

/-- C1 witness: in a pool of two distinct sessions that share the nickname
`"bob"`, the chat line of the first is delivered to the second (identity,
not nickname, decides the exclusion). -/
theorem chat_broadcast_excludes_sender_witness :
    (Session.mk 1 "bob",
        "[" ++ (Session.mk 0 "bob").nickname ++ "]: " ++ "hi" ++ "\n\r") ∈
      broadcast_new_message [Session.mk 0 "bob", Session.mk 1 "bob"]
        (Session.mk 0 "bob") "hi" :=
  ((chat_broadcast_excludes_sender [Session.mk 0 "bob", Session.mk 1 "bob"]
      (Session.mk 0 "bob") "hi").1 (Session.mk 1 "bob")).mpr (by decide)

/-! ### Claim C2 -/

/-- C2: over any sequence of connects of fresh writer objects (pairwise
distinct identities) against the initially empty pool, the welcome count
`len(self.connection_pool) - 1` recorded for the Nth client is exactly
N - 1: the counts recorded in order are `0, 1, ..., N-1`, because the count
is taken after the new session is added. -/
theorem welcome_counts_are_n_minus_one (cs : List ConnEvent)
    (h : (cs.map ConnEvent.sid).Nodup) :
    (runConnects cs).2 = (List.range cs.length).map Int.ofNat := by
  have hc := runConnectsFrom_counts cs [] h (by intro c _ hmem; simp at hmem)
  unfold runConnects
  rw [hc, List.range_eq_range']
  rfl

/-- C2 witness: three connects produce welcome counts `[0, 1, 2]`. -/
theorem welcome_counts_are_n_minus_one_witness :
    (([⟨0, "a\n", 0⟩, ⟨1, "b\n", 1⟩, ⟨2, "c\n", 0⟩] :
        List ConnEvent).map ConnEvent.sid).Nodup ∧
    (runConnects [⟨0, "a\n", 0⟩, ⟨1, "b\n", 1⟩, ⟨2, "c\n", 0⟩]).2 =
      (List.range 3).map Int.ofNat :=
  ⟨by decide,
    welcome_counts_are_n_minus_one
      [⟨0, "a\n", 0⟩, ⟨1, "b\n", 1⟩, ⟨2, "c\n", 0⟩] (by decide)⟩

/-! ### Claim C3 -/

/-- C3 counterexample: the claim covers every "abrupt end-of-stream or read
failure", but line 132 catches only `IncompleteReadError`.  A
`ConnectionResetError` re-raised by `readuntil` after an abortive peer
close is not an `IncompleteReadError`: it propagates out of
`handle_connection`, so — with pool `[ann, joe]` and `ann`'s reader
failing — no quit announcement reaches `joe` and `ann` is never removed
from the registry, while the `"/quit\n"` line delivers the announcement
and removes `ann`.  The two outcomes the claim requires to be identical
differ. -/
theorem reset_error_skips_quit_and_removal :
    handleRead [Session.mk 0 "ann", Session.mk 1 "joe"] (Session.mk 0 "ann")
        (ReadResult.err "ConnectionResetError") =
      ([], Except.error "ConnectionResetError", true) ∧
    handleRead [Session.mk 0 "ann", Session.mk 1 "joe"] (Session.mk 0 "ann")
        (ReadResult.line "/quit\n") =
      ([(Session.mk 1 "joe", "ann just quit\n\r")],
        Except.ok [Session.mk 1 "joe"], true) ∧
    handleRead [Session.mk 0 "ann", Session.mk 1 "joe"] (Session.mk 0 "ann")
        (ReadResult.err "ConnectionResetError") ≠
      handleRead [Session.mk 0 "ann", Session.mk 1 "joe"] (Session.mk 0 "ann")
        (ReadResult.line "/quit\n") := by
  refine ⟨by decide, by decide, by decide⟩

/-- C3 amended: only a clean end-of-stream (the `IncompleteReadError`
raised when the peer closes without sending `"/quit"`) produces exactly the
same observable outcome as an explicit `"/quit"`: the identical single quit
announcement `"<nickname> just quit"` written to every other pool member
and the identical removal from the registry.  Any other read failure (e.g.
`ConnectionResetError`) is not caught: the exception propagates, nothing
is written to anyone, and the session is never removed from the pool. -/
theorem eof_quits_but_read_error_propagates (pool : List Session)
    (w : Session) :
    (handleRead pool w ReadResult.eof =
        handleRead pool w (ReadResult.line "/quit\n")) ∧
    (∀ u : Session,
      (u, w.nickname ++ " just quit" ++ "\n\r") ∈
          (handleRead pool w ReadResult.eof).1 ↔ u ∈ pool ∧ u ≠ w) ∧
    (w ∈ pool →
      (handleRead pool w ReadResult.eof).2.1 = Except.ok (pool.erase w)) ∧
    (∀ exc : String,
      (handleRead pool w (ReadResult.err exc)).1 = [] ∧
      (handleRead pool w (ReadResult.err exc)).2.1 = Except.error exc) := by
  refine ⟨?_, ?_, ?_, ?_⟩
  · have hq : pyStrip "/quit\n" = "/quit" := by decide
    simp [handleRead, hq]
  · intro u
    show (u, _) ∈ broadcast_user_quit pool w ↔ _
    unfold broadcast_user_quit
    rw [mem_broadcast]
    constructor
    · rintro ⟨h1, h2, _⟩
      exact ⟨h1, h2⟩
    · rintro ⟨h1, h2⟩
      exact ⟨h1, h2, rfl⟩
  · intro hw
    show remove_user_from_pool pool w = _
    unfold remove_user_from_pool
    rw [if_pos hw]
  · intro exc
    exact ⟨rfl, rfl⟩

/-- C3 witness: with pool `[ann, joe]`, end-of-stream on `ann`'s reader
delivers the quit announcement to `joe` and removes `ann` from the pool,
while a connection-reset error delivers nothing and removes nobody. -/
theorem eof_quits_but_read_error_propagates_witness :
    ((Session.mk 1 "joe",
        (Session.mk 0 "ann").nickname ++ " just quit" ++ "\n\r") ∈
      (handleRead [Session.mk 0 "ann", Session.mk 1 "joe"]
        (Session.mk 0 "ann") ReadResult.eof).1) ∧
    (handleRead [Session.mk 0 "ann", Session.mk 1 "joe"]
        (Session.mk 0 "ann") ReadResult.eof).2.1 =
      Except.ok ([Session.mk 0 "ann", Session.mk 1 "joe"].erase
        (Session.mk 0 "ann")) ∧
    (handleRead [Session.mk 0 "ann", Session.mk 1 "joe"]
        (Session.mk 0 "ann") (ReadResult.err "ConnectionResetError")).1 =
      [] :=
  ⟨((eof_quits_but_read_error_propagates
      [Session.mk 0 "ann", Session.mk 1 "joe"]
      (Session.mk 0 "ann")).2.1 (Session.mk 1 "joe")).mpr (by decide),
   (eof_quits_but_read_error_propagates
      [Session.mk 0 "ann", Session.mk 1 "joe"]
      (Session.mk 0 "ann")).2.2.1 (by decide),
   ((eof_quits_but_read_error_propagates
      [Session.mk 0 "ann", Session.mk 1 "joe"]
      (Session.mk 0 "ann")).2.2.2 "ConnectionResetError").1⟩

/-! ### Claim C4 -/

lemma foldl_line_append (f : Session → String) (l : List Session)
    (a : String) :
    l.foldl (fun acc u => acc ++ f u) a = a ++ String.join (l.map f) := by
  rw [← List.foldl_map f (fun x y => x ++ y) l a]
  exact foldl_append_eq_join (l.map f) a

/-- C4 counterexample: the listing order is the Python set's iteration
order, which is not insertion order.  Inserting `bob` into the empty pool
and then `alice` at slot 0 (a placement the hash table is free to make) is
a reachable registry state whose listing shows `alice` before `bob`, not
the insertion order `bob`, `alice` the claim requires.  The second conjunct
records what the listing actually is. -/
theorem list_users_order_counterexample :
    list_users
        (add_new_user_to_pool
          (add_new_user_to_pool [] (Session.mk 0 "bob") 0)
          (Session.mk 1 "alice") 0)
        (Session.mk 0 "bob") ≠
      "===\n\rCurrently connected users:\n\r - bob (you)\n\r - alice\n\r===\n\r" ∧
    list_users
        (add_new_user_to_pool
          (add_new_user_to_pool [] (Session.mk 0 "bob") 0)
          (Session.mk 1 "alice") 0)
        (Session.mk 0 "bob") =
      "===\n\rCurrently connected users:\n\r - alice\n\r - bob (you)\n\r===\n\r" := by
  constructor
  · decide
  · decide

/-- C4 amended: the listing a `/list` requester receives is the bordered
block with exactly one line `"\n\r - <nickname>"` per session currently in
the pool, in the pool's iteration order (which the underlying set leaves
unspecified — not necessarily insertion order), where the `" (you)"` tag is
appended to a line exactly when that session is the requester itself
(`user == writer`). -/
theorem list_users_one_line_per_member (pool : List Session) (w : Session) :
    list_users pool w =
      "===\n\rCurrently connected users:" ++
        String.join (pool.map fun u =>
          "\n\r - " ++ u.nickname ++ (if u = w then " (you)" else "")) ++
        "\n\r===" ++ "\n\r" := by
  show (pool.foldl
      (fun acc user =>
        acc ++ ("\n\r - " ++ user.nickname ++
          (if user = w then " (you)" else "")))
      ("===\n\r" ++ "Currently connected users:")) ++ "\n\r===" ++ "\n\r" = _
  rw [foldl_line_append
    (fun u => "\n\r - " ++ u.nickname ++ (if u = w then " (you)" else ""))
    pool ("===\n\r" ++ "Currently connected users:")]
  have hlit : "===\n\r" ++ "Currently connected users:" =
      "===\n\rCurrently connected users:" := by decide
  rw [hlit]

/-! ### Claim C5 -/

/-- C5 counterexample: the loop strips the line before comparing
(`message = data.decode().strip()`), so `"  /quit  \n"` — `/quit`
surrounded by extra whitespace — triggers the quit path: the quit
announcement goes out, the session is removed, and the loop breaks; the
claim instead requires this line to be broadcast as chat content. -/
theorem whitespace_quit_still_quits :
    handleRead [Session.mk 0 "ann", Session.mk 1 "joe"] (Session.mk 0 "ann")
        (ReadResult.line "  /quit  \n") =
      ([(Session.mk 1 "joe", "ann just quit\n\r")],
        Except.ok [Session.mk 1 "joe"], true) := by
  decide

/-- C5 amended: every input line is first stripped of surrounding
whitespace; a line whose stripped form is exactly `"/quit"` triggers the
quit path and one whose stripped form is exactly `"/list"` triggers the
listing (so `"/quit"`/`"/list"` surrounded by extra whitespace do trigger
the commands); every other line — including empty lines and other strings
starting with `"/"` — is broadcast as chat content, prefixed
`"[<nickname>]: "`, with the stripped text as the message body. -/
theorem dispatch_strips_line_first (pool : List Session) (w : Session)
    (data : String) :
    (pyStrip data = "/quit" →
      handleRead pool w (ReadResult.line data) =
        (broadcast_user_quit pool w, remove_user_from_pool pool w, true)) ∧
    (pyStrip data = "/list" →
      handleRead pool w (ReadResult.line data) =
        ([(w, list_users pool w)], Except.ok pool, false)) ∧
    (pyStrip data ≠ "/quit" → pyStrip data ≠ "/list" →
      handleRead pool w (ReadResult.line data) =
        (broadcast_new_message pool w (pyStrip data),
          Except.ok pool, false)) := by
  refine ⟨?_, ?_, ?_⟩
  · intro h
    simp [handleRead, h]
  · intro h
    simp [handleRead, h]
  · intro h1 h2
    simp [handleRead, h1, h2]

/-- C5 witness: `"/quit now\n"` strips to `"/quit now"`, matches neither
command, and is broadcast as a chat message. -/
theorem dispatch_strips_line_first_witness :
    pyStrip "/quit now\n" ≠ "/quit" ∧ pyStrip "/quit now\n" ≠ "/list" ∧
    handleRead [Session.mk 0 "ann"] (Session.mk 0 "ann")
        (ReadResult.line "/quit now\n") =
      (broadcast_new_message [Session.mk 0 "ann"] (Session.mk 0 "ann")
        (pyStrip "/quit now\n"), Except.ok [Session.mk 0 "ann"], false) :=
  ⟨by decide, by decide,
    (dispatch_strips_line_first [Session.mk 0 "ann"] (Session.mk 0 "ann")
      "/quit now\n").2.2 (by decide) (by decide)⟩

/-! ### Claim C6 -/

/-- C6 counterexample: `handle_connection` performs no nickname validation:
a whitespace-only nickname line (here `" \n"`) is stripped to the empty
string and the session is still added to the registry — there is no
`InvalidNicknameError`, no rejection and no re-prompt anywhere in the
code.  The conjuncts show the resulting pool and that the unnamed session
is a member of it. -/
theorem blank_nickname_admitted :
    (runConnects [⟨0, " \n", 0⟩]).1 = [Session.mk 0 ""] ∧
    Session.mk 0 "" ∈ (runConnects [⟨0, " \n", 0⟩]).1 := by
  constructor
  · decide
  · decide

/-- C6 amended: the handshake never fails: whatever the nickname line, the
session is admitted to the registry; when the line is empty or
whitespace-only after trimming, the admitted session carries the empty
nickname. -/
theorem blank_nickname_still_added (pool : List Session) (c : ConnEvent)
    (h : pyStrip c.line = "") :
    (mkSession c).nickname = "" ∧ mkSession c ∈ connectPool pool c := by
  constructor
  · exact h
  · exact (mem_add_new_user_to_pool pool (mkSession c) c.pos
      (mkSession c)).mpr (Or.inr rfl)

/-- C6 witness: the whitespace-only line `"   \n"` yields an admitted
session with the empty nickname. -/
theorem blank_nickname_still_added_witness :
    pyStrip (ConnEvent.mk 5 "   \n" 2).line = "" ∧
    ((mkSession (ConnEvent.mk 5 "   \n" 2)).nickname = "" ∧
      mkSession (ConnEvent.mk 5 "   \n" 2) ∈
        connectPool [] (ConnEvent.mk 5 "   \n" 2)) :=
  ⟨by decide, blank_nickname_still_added [] (ConnEvent.mk 5 "   \n" 2)
    (by decide)⟩

/-! ### Claim C7 -/

/-- C7 counterexample: `remove_user_from_pool` calls `set.remove`, which
raises `KeyError` when the element is absent — removing a non-member is an
error surfaced to the caller, not a tolerated no-op.  (The code never hits
this in its single-removal flow, but the operation itself is not
idempotent as the claim states.) -/
theorem remove_absent_raises :
    remove_user_from_pool [] (Session.mk 0 "bob") =
      Except.error "KeyError" := by
  decide

/-- C7 amended: removing a session that is not a member raises `KeyError`
to the caller (removal is not idempotent); removing a member removes
exactly it. -/
theorem remove_semantics (pool : List Session) (w : Session) :
    (w ∉ pool → remove_user_from_pool pool w = Except.error "KeyError") ∧
    (w ∈ pool → remove_user_from_pool pool w = Except.ok (pool.erase w)) := by
  constructor
  · intro h
    unfold remove_user_from_pool
    rw [if_neg h]
  · intro h
    unfold remove_user_from_pool
    rw [if_pos h]

/-- C7 witness: removing `bob` from a pool that holds only `alice` raises
`KeyError`; removing `alice` from it removes her. -/
theorem remove_semantics_witness :
    (Session.mk 0 "bob" ∉ [Session.mk 1 "alice"] ∧
      remove_user_from_pool [Session.mk 1 "alice"] (Session.mk 0 "bob") =
        Except.error "KeyError") ∧
    (Session.mk 1 "alice" ∈ [Session.mk 1 "alice"] ∧
      remove_user_from_pool [Session.mk 1 "alice"] (Session.mk 1 "alice") =
        Except.ok ([Session.mk 1 "alice"].erase (Session.mk 1 "alice"))) :=
  ⟨⟨by decide,
      (remove_semantics [Session.mk 1 "alice"] (Session.mk 0 "bob")).1
        (by decide)⟩,
   ⟨by decide,
      (remove_semantics [Session.mk 1 "alice"] (Session.mk 1 "alice")).2
        (by decide)⟩⟩

/-! ### Claim C8 -/

/-- C8 counterexample: the write loop of `broadcast` sits in no
`try`/`except`, so a raising `user.write` propagates and aborts the whole
broadcast.  With pool iteration order `[ann, bob, cec]`, sender `ann` and a
write failure on `bob`, the broadcast performs no write at all and aborts:
`cec`, a healthy member of the snapshot, never receives the message,
contradicting the claim that one recipient's failure only skips that
recipient. -/
theorem write_failure_aborts_broadcast :
    broadcastWith (fun u => decide (u.sid = 1))
        [Session.mk 0 "ann", Session.mk 1 "bob", Session.mk 2 "cec"]
        (Session.mk 0 "ann") "hi" = ([], true) ∧
    (Session.mk 2 "cec", "hi\n\r") ∉
      (broadcastWith (fun u => decide (u.sid = 1))
        [Session.mk 0 "ann", Session.mk 1 "bob", Session.mk 2 "cec"]
        (Session.mk 0 "ann") "hi").1 := by
  constructor
  · decide
  · decide

/-- C8 amended: a write failure on one recipient is not caught: the
broadcast aborts at the first failing recipient, so exactly the failing
and the not-yet-visited recipients miss the message; the broadcast aborts
iff some non-sender member's write fails, every delivery that did happen
went to a non-failing recipient, and only a broadcast with no failing
recipient reaches every other member. -/
theorem broadcast_aborts_on_write_failure (fails : Session → Bool)
    (pool : List Session) (w : Session) (m : String) :
    ((broadcastWith fails pool w m).2 = true ↔
      ∃ u ∈ pool, u ≠ w ∧ fails u = true) ∧
    ((broadcastWith fails pool w m).2 = false →
      ∀ u ∈ pool, u ≠ w → (u, m ++ "\n\r") ∈ (broadcastWith fails pool w m).1) ∧
    (∀ (u : Session) (s : String),
      (u, s) ∈ (broadcastWith fails pool w m).1 → fails u = false) :=
  ⟨broadcastWith_aborted fails pool w m,
   fun hab u hu hne => broadcastWith_complete fails pool w m hab u hu hne,
   fun u s h => (mem_broadcastWith fails pool w m u s h).2.2.2⟩

/-- C8 witness: with no failing writer, the broadcast does not abort and
the other member receives the message. -/
theorem broadcast_aborts_on_write_failure_witness :
    (broadcastWith (fun _ => false)
        [Session.mk 0 "ann", Session.mk 1 "bob"]
        (Session.mk 0 "ann") "hi").2 = false ∧
    (Session.mk 1 "bob", "hi\n\r") ∈
      (broadcastWith (fun _ => false)
        [Session.mk 0 "ann", Session.mk 1 "bob"]
        (Session.mk 0 "ann") "hi").1 :=
  ⟨by decide,
    (broadcast_aborts_on_write_failure (fun _ => false)
      [Session.mk 0 "ann", Session.mk 1 "bob"]
      (Session.mk 0 "ann") "hi").2.1 (by decide)
      (Session.mk 1 "bob") (by decide) (by decide)⟩

/-! ### Claim C9 -/

/-- C9 counterexample: `add_new_user_to_pool` is `set.add`, which on an
already-present element succeeds silently and leaves the set unchanged —
it does not fail, and no `DuplicateSessionError` exists anywhere in the
code (the operation's result type has no error channel at all). -/
theorem duplicate_add_is_silent :
    add_new_user_to_pool [Session.mk 0 "bob"] (Session.mk 0 "bob") 0 =
      [Session.mk 0 "bob"] := by
  decide

/-- C9 amended: adding a session that is already a member is a silent
no-op: the pool is returned unchanged and no error is signalled. -/
theorem duplicate_add_noop (pool : List Session) (w : Session) (pos : Nat)
    (h : w ∈ pool) : add_new_user_to_pool pool w pos = pool :=
  add_new_user_to_pool_of_mem pool w pos h

/-- C9 witness: re-adding `bob` to `[bob, alice]` leaves the pool as is. -/
theorem duplicate_add_noop_witness :
    Session.mk 0 "bob" ∈ [Session.mk 0 "bob", Session.mk 1 "alice"] ∧
    add_new_user_to_pool [Session.mk 0 "bob", Session.mk 1 "alice"]
        (Session.mk 0 "bob") 1 =
      [Session.mk 0 "bob", Session.mk 1 "alice"] :=
  ⟨by decide,
    duplicate_add_noop [Session.mk 0 "bob", Session.mk 1 "alice"]
      (Session.mk 0 "bob") 1 (by decide)⟩

/-! ### Claim C10 -/

/-- C10: every member of the registry after any sequence of connects is the
session built by the handshake of one of those connects: its nickname is
that connect's first input line with all leading and trailing whitespace
(newline and carriage return included — they satisfy `isPySpace`) removed,
attached to the session before `add_new_user_to_pool` admits it.
Concretely, the input line splits as whitespace ++ nickname ++ whitespace,
and the nickname itself neither starts nor ends with whitespace. -/
theorem nickname_stripped_before_registration (cs : List ConnEvent)
    (u : Session) (hu : u ∈ (runConnects cs).1) :
    ∃ c ∈ cs, u = mkSession c ∧ u.nickname = pyStrip c.line ∧
      (∃ pre post, c.line.toList = pre ++ u.nickname.toList ++ post ∧
        (∀ a ∈ pre, isPySpace a = true) ∧ (∀ a ∈ post, isPySpace a = true)) ∧
      (∀ a : Char, u.nickname.toList.head? = some a → isPySpace a = false) ∧
      (∀ a : Char, u.nickname.toList.getLast? = some a →
        isPySpace a = false) := by
  rcases mem_runConnectsFrom cs [] u hu with h | ⟨c, hc, rfl⟩
  · cases h
  · refine ⟨c, hc, rfl, rfl, ?_, ?_, ?_⟩
    · exact pyStripList_decomp c.line.toList
    · intro a ha
      exact pyStripList_head c.line.toList a ha
    · intro a ha
      exact pyStripList_getLast c.line.toList a ha

/-- C10 witness: connecting with the line `"  bo b \n"` registers the
session nicknamed `"bo b"` (inner whitespace kept, surrounding whitespace
— including the newline — removed), and the stated decomposition holds for
it. -/
theorem nickname_stripped_before_registration_witness :
    Session.mk 7 "bo b" ∈ (runConnects [ConnEvent.mk 7 "  bo b \n" 0]).1 ∧
    (∃ c ∈ [ConnEvent.mk 7 "  bo b \n" 0], Session.mk 7 "bo b" = mkSession c ∧
      (Session.mk 7 "bo b").nickname = pyStrip c.line ∧
      (∃ pre post, c.line.toList =
          pre ++ (Session.mk 7 "bo b").nickname.toList ++ post ∧
        (∀ a ∈ pre, isPySpace a = true) ∧ (∀ a ∈ post, isPySpace a = true)) ∧
      (∀ a : Char, (Session.mk 7 "bo b").nickname.toList.head? = some a →
        isPySpace a = false) ∧
      (∀ a : Char, (Session.mk 7 "bo b").nickname.toList.getLast? = some a →
        isPySpace a = false)) :=
  ⟨by decide,
    nickname_stripped_before_registration [ConnEvent.mk 7 "  bo b \n" 0]
      (Session.mk 7 "bo b") (by decide)⟩
